import Mathlib

/-!
Verification of the bookclub indexing-and-retrieval pipeline.

The Python sources (main.py, titles.py, summarize.py) are shallowly embedded
here.  Python strings are modelled as lists of characters (`Str`), so that
every slicing and stripping operation has exact codepoint semantics and every
definition is executable by the kernel.  External collaborators (the embedding
model, the summarization model, the Qt widgets, and the chromadb store) are
modelled through an explicit trace of `Effect`s issued by the pipeline plus
contract hypotheses on the data they return.
-/

namespace Bookclub

/-- Python strings, modelled as lists of characters (one entry per codepoint,
matching Python's indexing and slicing semantics). -/
abbrev Str := List Char

/-- Python `str.isspace` characters that `str.strip()` removes (ASCII range):
space, tab, newline, carriage return, vertical tab, form feed. -/
def pyIsSpace (c : Char) : Bool :=
  c == ' ' || c == '\t' || c == '\n' || c == '\r' || c == '\x0b' || c == '\x0c'

/-- Python `s.strip()`: remove leading and trailing whitespace. -/
def pyStrip (s : Str) : Str :=
  ((s.dropWhile pyIsSpace).reverse.dropWhile pyIsSpace).reverse

/-- Python `s.startswith(p)`. -/
def pyStartsWith : Str → Str → Bool
  | _, [] => true
  | [], _ :: _ => false
  | a :: s, b :: p => a == b && pyStartsWith s p

/-- Python `sep.join(parts)`. -/
def pyJoin (sep : Str) : List Str → Str
  | [] => []
  | p :: ps => p ++ (ps.flatMap fun q => sep ++ q)

/-- Python `str(n)` for a natural number: its decimal digits. -/
def pyStr (n : Nat) : Str :=
  Nat.toDigits 10 n

/-! ## main.py: markdown paragraph streaming -/

/-- main.py `extract_chapter_from_line`: a line starting with `#` yields the
line with all leading hash marks removed and surrounding whitespace stripped;
any other line yields `none`. -/
def extract_chapter_from_line (line : Str) : Option Str :=
  if pyStartsWith line ['#'] then some (pyStrip (line.dropWhile fun c => c == '#'))
  else none

/-- Joined paragraph text accumulated by `stream_paragraphs`:
Python `' '.join(current_para).strip()`. -/
def joinPara (para : List Str) : Str :=
  pyStrip (pyJoin [' '] para)

/-- State machine of main.py `stream_paragraphs`, walking the remaining lines
while carrying the current chapter and the accumulated paragraph lines.  Each
line is stripped first.  A line giving a nonempty chapter title updates the
chapter (Python `if chapter:`; an empty title string is falsy, so a bare `#`
line falls through to the paragraph branch).  A nonempty non-heading line
extends the paragraph.  An empty line flushes a nonempty paragraph, yielding
it only when its joined text is at least 20 characters long.  End of input
flushes the pending paragraph without the length check. -/
def stream_paragraphs_aux (chapter : Str) (para : List Str) :
    List Str → List (Str × Str)
  | [] => if para.isEmpty then [] else [(chapter, joinPara para)]
  | l :: ls =>
    let line := pyStrip l
    match extract_chapter_from_line line with
    | some c =>
      if c.isEmpty then stream_paragraphs_aux chapter (para ++ [line]) ls
      else stream_paragraphs_aux c para ls
    | none =>
      if line.isEmpty then
        if para.isEmpty then stream_paragraphs_aux chapter para ls
        else
          (if 20 ≤ (joinPara para).length then [(chapter, joinPara para)] else [])
            ++ stream_paragraphs_aux chapter [] ls
      else stream_paragraphs_aux chapter (para ++ [line]) ls

/-- main.py `stream_paragraphs` over the lines of the converted markdown file:
starts in chapter "Introduction" with an empty paragraph accumulator and
returns the (chapter, paragraph text) pairs in order. -/
def stream_paragraphs (lines : List Str) : List (Str × Str) :=
  stream_paragraphs_aux "Introduction".toList [] lines

theorem stream_paragraphs_aux_blank_terminated (ls : List Str) :
    ∀ chapter para p, p ∈ stream_paragraphs_aux chapter para (ls ++ [[]]) →
      20 ≤ p.2.length := by
  induction ls with
  | nil =>
    intro chapter para p hp
    simp only [List.nil_append, stream_paragraphs_aux, extract_chapter_from_line,
      pyStrip, pyStartsWith, List.dropWhile_nil, List.reverse_nil] at hp
    by_cases hpe : para.isEmpty
    · simp [hpe, stream_paragraphs_aux] at hp
    · simp only [hpe, if_false, List.isEmpty_nil, if_true] at hp
      by_cases hlen : 20 ≤ (joinPara para).length
      · simp [hlen, stream_paragraphs_aux] at hp
        subst hp
        exact hlen
      · simp [hlen, stream_paragraphs_aux] at hp
  | cons l ls ih =>
    intro chapter para p hp
    rw [List.cons_append, stream_paragraphs_aux] at hp
    rcases hcl : extract_chapter_from_line (pyStrip l) with _ | c
    · rw [hcl] at hp
      by_cases hle : (pyStrip l).isEmpty
      · simp only [hle, if_true] at hp
        by_cases hpe : para.isEmpty
        · simp only [hpe, if_true] at hp
          exact ih chapter para p hp
        · simp only [hpe, if_false] at hp
          rcases List.mem_append.mp hp with hin | hin
          · by_cases hlen : 20 ≤ (joinPara para).length
            · simp only [hlen, if_true, List.mem_singleton] at hin
              rw [hin]
              exact hlen
            · simp [hlen] at hin
          · exact ih chapter [] p hin
      · simp only [hle, if_false] at hp
        exact ih chapter (para ++ [pyStrip l]) p hp
    · rw [hcl] at hp
      by_cases hce : c.isEmpty
      · simp only [hce, if_true] at hp
        exact ih chapter (para ++ [pyStrip l]) p hp
      · simp only [hce, if_false] at hp
        exact ih c para p hp

/-- C10: in the markdown paragraph stream, a paragraph terminated by a blank
line is yielded only when its joined text is at least 20 characters long
(appending a trailing blank line makes every paragraph blank-terminated, so
every yield of such an input passes the length check), while the final
paragraph at end of input is yielded regardless of length; consequently some
inputs yield a paragraph shorter than 20 characters, and a short interior
paragraph is silently dropped even though its text is nonempty. -/
theorem c10_short_paragraphs :
    (∀ lines p, p ∈ stream_paragraphs (lines ++ [[]]) → 20 ≤ p.2.length)
    ∧ stream_paragraphs ["tiny".toList] = [("Introduction".toList, "tiny".toList)]
    ∧ stream_paragraphs ["tiny".toList, [],
        "this interior paragraph is certainly long enough".toList] =
      [("Introduction".toList,
        "this interior paragraph is certainly long enough".toList)] := by
  refine ⟨fun lines p hp => ?_, by decide, by decide⟩
  exact stream_paragraphs_aux_blank_terminated lines "Introduction".toList [] p hp

/-- Witness for C10 at a concrete input: a 25-character paragraph terminated
by the trailing blank line is yielded and indeed has length at least 20. -/
theorem c10_witness :
    20 ≤ ("aaaaaaaaaaaaaaaaaaaaaaaaa".toList : Str).length :=
  c10_short_paragraphs.1 ["aaaaaaaaaaaaaaaaaaaaaaaaa".toList]
    ("Introduction".toList, "aaaaaaaaaaaaaaaaaaaaaaaaa".toList) (by decide)

/-! ## Effect traces of the pipeline -/

/-- Observable calls the pipeline makes to its external collaborators: progress
reports to the UI callback, the ebook-convert subprocess, the embedding client
(the batch form the indexing loop would use, the single-query form used by
search), the chromadb
store (add, get-all, nearest-neighbor query, collection-metadata modify), and
the summarization client (tagged with the chapter the loop is processing and
the text passed to it). -/
inductive Effect where
  | progress (msg : Str)
  | convert (book : Str)
  | embedBatch (texts : List Str)
  | storeAdd (ids : List Str) (docs : List Str) (chapters : List Str)
  | storeGetAll
  | storeQuery (k : Nat)
  | embedQuery (q : Str)
  | summarize (chapter : Str) (text : Str)
  | metadataModify
  deriving DecidableEq

/-- Ids handed to the store across a trace, in order of the add calls
(main.py passes `ids=map(str, itertools.islice(ids, len(chapter)))`). -/
def addedIds (effs : List Effect) : List Str :=
  effs.flatMap fun e =>
    match e with
    | Effect.storeAdd ids _ _ => ids
    | _ => []

/-- Documents handed to the store across a trace, in order of the add calls. -/
def addedDocs (effs : List Effect) : List Str :=
  effs.flatMap fun e =>
    match e with
    | Effect.storeAdd _ docs _ => docs
    | _ => []

/-! ## main.py: index_book -/

/-- Fixed-size batching of the paragraph stream,
Python `itertools.batched(stream_paragraphs(md_path), 256)`: successive chunks
of 256 in order, the last chunk possibly shorter. -/
def batched256 {α : Type} : List α → List (List α)
  | [] => []
  | a :: l => ((a :: l).take 256) :: batched256 ((a :: l).drop 256)
termination_by l => l.length
decreasing_by simp [List.length_drop]; omega

theorem batched256_flatten {α : Type} : ∀ l : List α, (batched256 l).flatten = l
  | [] => by simp [batched256]
  | a :: l => by
    rw [batched256, List.flatten_cons, batched256_flatten ((a :: l).drop 256)]
    exact List.take_append_drop 256 (a :: l)
termination_by l => l.length
decreasing_by simp [List.length_drop]; omega

/-- Failure modes of `index_book`: chromadb's `create_collection` raises when
a collection of that name already exists, and the first iteration of the batch
loop raises `NameError` because main.py line 82 executes
`chapter, text = unzip(*batch)` with `unzip` defined nowhere — it is not a
Python builtin and is not among the module's imports. -/
inductive IndexErr where
  | collectionExists
  | nameErrorUnzip
  deriving DecidableEq

/-- main.py collection naming: the book stem with spaces and hyphens replaced
by underscores. -/
def collection_name (stem : Str) : Str :=
  stem.map fun c => if c == ' ' || c == '-' then '_' else c

/-- main.py `index_book`, modelled over whether a collection of the book's
name already exists in the persistent store at the derived path, the book's
stem, and the lines of the markdown file produced by conversion.  It reports
conversion, converts, reports database creation, then calls
`create_collection` — which raises if the collection already exists (there is
no prior existence check).  The batch loop then iterates
`itertools.batched(stream_paragraphs(md_path), 256)`: with an empty stream the
loop body never runs and the database path is returned, but on its first
iteration the loop executes `chapter, text = unzip(*batch)` and aborts with a
`NameError` (`unzip` is undefined) — before any embedding call, any
"Processing" progress report, and any store add. -/
def index_book (collectionExists : Bool) (stem : Str) (mdLines : List Str) :
    List Effect × Except IndexErr Str :=
  let dbPath := stem ++ "_db".toList
  let pre : List Effect :=
    [Effect.progress "Converting book to markdown...".toList,
     Effect.convert stem,
     Effect.progress ("Creating database at ".toList ++ dbPath ++ "...".toList)]
  if collectionExists then (pre, Except.error IndexErr.collectionExists)
  else
    match batched256 (stream_paragraphs mdLines) with
    | [] => (pre, Except.ok dbPath)
    | _ :: _ => (pre, Except.error IndexErr.nameErrorUnzip)

/-- C5 evaluated on the code: on any document whose stream yields at least
one paragraph, the first batch-loop iteration raises the `unzip` NameError
before any embedding call and before any store add, so indexing aborts and no
ids — in particular not str 0 .. str (p-1) — are ever handed to the store. -/
theorem c5_unzip_name_error (stem : Str) (mdLines : List Str)
    (h : stream_paragraphs mdLines ≠ []) :
    (index_book false stem mdLines).2 = Except.error IndexErr.nameErrorUnzip
    ∧ addedIds (index_book false stem mdLines).1 = []
    ∧ addedDocs (index_book false stem mdLines).1 = []
    ∧ ∀ ts, Effect.embedBatch ts ∉ (index_book false stem mdLines).1 := by
  rcases hs : stream_paragraphs mdLines with _ | ⟨p, ps⟩
  · exact absurd hs h
  · have hb : index_book false stem mdLines
        = ([Effect.progress "Converting book to markdown...".toList,
            Effect.convert stem,
            Effect.progress ("Creating database at ".toList
              ++ (stem ++ "_db".toList) ++ "...".toList)],
           Except.error IndexErr.nameErrorUnzip) := by
      simp only [index_book, hs, batched256, Bool.false_eq_true, if_false]
    rw [hb]
    refine ⟨rfl, rfl, rfl, fun ts hmem => ?_⟩
    simp at hmem

/-- Witness for C5 at a concrete input: a one-paragraph book aborts indexing
with the `unzip` NameError. -/
theorem c5_witness :
    (index_book false "book".toList
        ["a paragraph line of sufficient length".toList]).2
      = Except.error IndexErr.nameErrorUnzip :=
  (c5_unzip_name_error "book".toList
    ["a paragraph line of sufficient length".toList] (by decide)).1

/-- C1 counterexample: with the collection's on-disk location already present
(second call on the same path), `index_book` does not report "already indexed"
and return the existing handle with no extraction — it performs the markdown
conversion and then aborts with the store's collection-exists error. -/
theorem c1_counterexample :
    Effect.convert "book".toList
        ∈ (index_book true "book".toList ["a paragraph line".toList]).1
    ∧ (index_book true "book".toList ["a paragraph line".toList]).2
        = Except.error IndexErr.collectionExists := by
  constructor
  · simp [index_book]
  · rfl

/-- C1 amended: `index_book` performs no already-indexed check.  When the
collection already exists, its trace is exactly the two progress reports and
the conversion — so conversion work is re-done, no "already indexed" message
is emitted — and it then aborts with the store's collection-exists error,
adding no paragraphs and assigning no ids. -/
theorem c1_no_idempotence_check (stem : Str) (mdLines : List Str) :
    (index_book true stem mdLines).1
      = [Effect.progress "Converting book to markdown...".toList,
         Effect.convert stem,
         Effect.progress ("Creating database at ".toList
           ++ (stem ++ "_db".toList) ++ "...".toList)]
    ∧ (index_book true stem mdLines).2 = Except.error IndexErr.collectionExists
    ∧ addedIds (index_book true stem mdLines).1 = []
    ∧ addedDocs (index_book true stem mdLines).1 = [] := by
  refine ⟨rfl, rfl, ?_, ?_⟩ <;> simp [index_book, addedIds, addedDocs]

/-! ## main.py: chapter grouping, summary view, search submission -/

/-- Python `meta.get('chapter', 'Unknown')` in main.py `get_chapter_docs`. -/
def chapterOf (meta : Option Str) : Str :=
  meta.getD "Unknown".toList

/-- Python dict grouping step of `get_chapter_docs`
(`chapters.setdefault(chapter, []).append(doc)`): an existing chapter key gets
the document appended to its list; a new key is appended at the end,
preserving dict insertion order. -/
def groupInsert : List (Str × List Str) → Str → Str → List (Str × List Str)
  | [], ch, doc => [(ch, [doc])]
  | (c, ds) :: rest, ch, doc =>
    if c = ch then (c, ds ++ [doc]) :: rest else (c, ds) :: groupInsert rest ch doc

/-- main.py `get_chapter_docs` over the store's full dump: the entries are
(document, metadata chapter) pairs in store order; documents are grouped by
chapter, first-occurrence key order. -/
def get_chapter_docs (entries : List (Str × Option Str)) : List (Str × List Str) :=
  entries.foldl (fun m e => groupInsert m (chapterOf e.2) e.1) []

/-- Chapter keys of a grouped structure. -/
def keysOf (m : List (Str × List Str)) : List Str :=
  m.map Prod.fst

/-- Python string comparison `s <= t` (lexicographic by codepoint), the order
`sorted(chapters.items())` uses on the (unique) chapter keys. -/
def pyStrLe : Str → Str → Bool
  | [], _ => true
  | _ :: _, [] => false
  | a :: s, b :: t => if a < b then true else if a = b then pyStrLe s t else false

theorem pyStrLe_cons (a b : Char) (s t : Str) :
    pyStrLe (a :: s) (b :: t) = true ↔ a < b ∨ (a = b ∧ pyStrLe s t = true) := by
  show (if a < b then true else if a = b then pyStrLe s t else false) = true ↔ _
  split_ifs with h1 h2
  · simp [h1]
  · simp [h1, h2]
  · simp [h1, h2]

theorem pyStrLe_total : ∀ s t : Str, pyStrLe s t = true ∨ pyStrLe t s = true
  | [], _ => Or.inl rfl
  | _ :: _, [] => Or.inr rfl
  | a :: s, b :: t => by
    rcases lt_trichotomy a b with h | h | h
    · exact Or.inl ((pyStrLe_cons a b s t).mpr (Or.inl h))
    · rcases pyStrLe_total s t with hs | hs
      · exact Or.inl ((pyStrLe_cons a b s t).mpr (Or.inr ⟨h, hs⟩))
      · exact Or.inr ((pyStrLe_cons b a t s).mpr (Or.inr ⟨h.symm, hs⟩))
    · exact Or.inr ((pyStrLe_cons b a t s).mpr (Or.inl h))

theorem pyStrLe_trans :
    ∀ s t u : Str, pyStrLe s t = true → pyStrLe t u = true → pyStrLe s u = true
  | [], _, _, _, _ => rfl
  | _ :: _, [], _, h1, _ => by cases h1
  | _ :: _, _ :: _, [], _, h2 => by cases h2
  | a :: s, b :: t, c :: u, h1, h2 => by
    rcases (pyStrLe_cons a b s t).mp h1 with hab | ⟨hab, hst⟩ <;>
      rcases (pyStrLe_cons b c t u).mp h2 with hbc | ⟨hbc, htu⟩
    · exact (pyStrLe_cons a c s u).mpr (Or.inl (lt_trans hab hbc))
    · exact (pyStrLe_cons a c s u).mpr (Or.inl (lt_of_lt_of_eq hab hbc))
    · exact (pyStrLe_cons a c s u).mpr (Or.inl (lt_of_eq_of_lt hab hbc))
    · exact (pyStrLe_cons a c s u).mpr
        (Or.inr ⟨hab.trans hbc, pyStrLe_trans s t u hst htu⟩)

instance : IsTotal (Str × List Str) (fun a b => pyStrLe a.1 b.1 = true) :=
  ⟨fun a b => pyStrLe_total a.1 b.1⟩

instance : IsTrans (Str × List Str) (fun a b => pyStrLe a.1 b.1 = true) :=
  ⟨fun a b c => pyStrLe_trans a.1 b.1 c.1⟩

/-- Python `sorted(chapters.items())` in `show_summaries`: the grouped
chapters sorted by chapter title (keys are unique, so comparison never reaches
the values; `sorted` is modelled by insertion sort, which agrees with any
sort on a list with pairwise-distinct keys). -/
def sorted_chapters (entries : List (Str × Option Str)) : List (Str × List Str) :=
  List.insertionSort (fun a b => pyStrLe a.1 b.1 = true) (get_chapter_docs entries)

/-- main.py `SearchWindow.show_summaries`: fetches all documents from the
store, groups them by chapter, and for each chapter in sorted order invokes
the summarization client on the space-join of the chapter's first 10
documents.  Nothing is read from or written to collection metadata. -/
def show_summaries (entries : List (Str × Option Str)) : List Effect :=
  Effect.storeGetAll ::
    (sorted_chapters entries).flatMap fun g =>
      [Effect.summarize g.1 (pyJoin [' '] (g.2.take 10))]

/-- main.py `SearchWindow.perform_search`: strips the query text; an empty
result falls back to the summary view, otherwise the query is embedded and a
top-10 nearest-neighbor store query is issued. -/
def perform_search (entries : List (Str × Option Str)) (searchInput : Str) :
    List Effect :=
  let query := pyStrip searchInput
  if query.isEmpty then show_summaries entries
  else [Effect.embedQuery query, Effect.storeQuery 10]

/-- Summarization-client invocations in a trace. -/
def countSummarize (effs : List Effect) : Nat :=
  effs.countP fun e =>
    match e with
    | Effect.summarize _ _ => true
    | _ => false

theorem keysOf_groupInsert (m : List (Str × List Str)) (ch doc : Str) :
    keysOf (groupInsert m ch doc)
      = if ch ∈ keysOf m then keysOf m else keysOf m ++ [ch] := by
  induction m with
  | nil => simp [groupInsert, keysOf]
  | cons e rest ih =>
    obtain ⟨c, ds⟩ := e
    by_cases hc : c = ch
    · simp [groupInsert, hc, keysOf]
    · have hg : groupInsert ((c, ds) :: rest) ch doc
          = (c, ds) :: groupInsert rest ch doc := by
        rw [groupInsert, if_neg hc]
      rw [hg]
      have h1 : keysOf ((c, ds) :: groupInsert rest ch doc)
          = c :: keysOf (groupInsert rest ch doc) := rfl
      have h2 : keysOf ((c, ds) :: rest) = c :: keysOf rest := rfl
      rw [h1, h2, ih]
      have hcc : (ch ∈ c :: keysOf rest) ↔ (ch ∈ keysOf rest) := by
        constructor
        · intro hx
          rcases List.mem_cons.mp hx with hx | hx
          · exact absurd hx.symm hc
          · exact hx
        · exact fun hx => List.mem_cons_of_mem c hx
      by_cases h : ch ∈ keysOf rest
      · rw [if_pos h, if_pos (hcc.mpr h)]
      · rw [if_neg h, if_neg (fun hx => h (hcc.mp hx)), List.cons_append]

theorem mem_keysOf_groupInsert (m : List (Str × List Str)) (ch c doc : Str) :
    c ∈ keysOf (groupInsert m ch doc) ↔ c ∈ keysOf m ∨ c = ch := by
  rw [keysOf_groupInsert]
  split_ifs with h
  · constructor
    · exact fun hx => Or.inl hx
    · rintro (hx | rfl)
      · exact hx
      · exact h
  · simp

theorem nodup_keysOf_groupInsert (m : List (Str × List Str)) (ch doc : Str)
    (h : (keysOf m).Nodup) : (keysOf (groupInsert m ch doc)).Nodup := by
  rw [keysOf_groupInsert]
  split_ifs with hmem
  · exact h
  · simp [List.nodup_append, h, hmem]

theorem get_chapter_docs_keys_core (entries : List (Str × Option Str)) :
    ∀ m : List (Str × List Str),
      ((keysOf m).Nodup →
        (keysOf (entries.foldl (fun m e => groupInsert m (chapterOf e.2) e.1) m)).Nodup)
      ∧ ∀ c, c ∈ keysOf (entries.foldl (fun m e => groupInsert m (chapterOf e.2) e.1) m)
          ↔ c ∈ keysOf m ∨ c ∈ entries.map fun e => chapterOf e.2 := by
  induction entries with
  | nil => intro m; simp
  | cons e es ih =>
    intro m
    rw [List.foldl_cons]
    constructor
    · intro h
      exact (ih (groupInsert m (chapterOf e.2) e.1)).1
        (nodup_keysOf_groupInsert m (chapterOf e.2) e.1 h)
    · intro c
      rw [(ih (groupInsert m (chapterOf e.2) e.1)).2 c,
        mem_keysOf_groupInsert, List.map_cons, List.mem_cons]
      tauto

theorem get_chapter_docs_keys_nodup (entries : List (Str × Option Str)) :
    (keysOf (get_chapter_docs entries)).Nodup :=
  (get_chapter_docs_keys_core entries []).1 (by simp [keysOf])

theorem mem_keysOf_get_chapter_docs (entries : List (Str × Option Str)) (c : Str) :
    c ∈ keysOf (get_chapter_docs entries) ↔ c ∈ entries.map fun e => chapterOf e.2 := by
  rw [get_chapter_docs, (get_chapter_docs_keys_core entries []).2 c]
  simp [keysOf]

theorem flatMap_one {α β : Type} (f : α → β) (l : List α) :
    (l.flatMap fun x => [f x]) = l.map f := by
  induction l with
  | nil => rfl
  | cons a l ih => simp [ih]

theorem length_le_one_of_all_eq {α : Type} (l : List α) (a : α)
    (hall : ∀ x ∈ l, x = a) (hn : l.Nodup) : l.length ≤ 1 := by
  match l, hn with
  | [], _ => simp
  | [x], _ => simp
  | x :: y :: t, hn =>
    exfalso
    have hx := hall x (by simp)
    have hy := hall y (by simp)
    rw [List.nodup_cons] at hn
    exact hn.1 (by simp [hx, hy])

theorem countSummarize_show_summaries (entries : List (Str × Option Str)) :
    countSummarize (show_summaries entries) = (get_chapter_docs entries).length := by
  rw [show_summaries, countSummarize, flatMap_one
    (fun g : Str × List Str => Effect.summarize g.1 (pyJoin [' '] (g.2.take 10)))]
  rw [List.countP_cons]
  norm_num
  have h : ((fun e =>
      match e with
      | Effect.summarize _ _ => true
      | _ => false) ∘ fun g : Str × List Str =>
        Effect.summarize g.1 (pyJoin [' '] (g.2.take 10)))
      = fun _ : Str × List Str => true := by
    funext g
    rfl
  rw [h, List.countP_true, sorted_chapters, List.length_insertionSort]

theorem metadataModify_not_mem_show_summaries (entries : List (Str × Option Str)) :
    Effect.metadataModify ∉ show_summaries entries := by
  intro h
  rcases List.mem_cons.mp h with h | h
  · exact Effect.noConfusion h
  · rcases List.mem_flatMap.mp h with ⟨g, _, hg⟩
    simp at hg

theorem metadataModify_not_mem_index_book (ex : Bool) (stem : Str)
    (mdLines : List Str) :
    Effect.metadataModify ∉ (index_book ex stem mdLines).1 := by
  cases ex
  · rcases hb : batched256 (stream_paragraphs mdLines) with _ | ⟨b, bs⟩ <;>
      simp [index_book, hb]
  · simp [index_book]

/-- C2 counterexample: the summary view is not a cache read — a call to
`show_summaries` on a store holding one document invokes the Summarization
Client (so repeated calls invoke it again each time, contradicting the claim
that it is only deserialized metadata from index time). -/
theorem c2_counterexample :
    Effect.summarize "Ch1".toList "first doc".toList
      ∈ show_summaries [("first doc".toList, some "Ch1".toList)] := by
  decide

/-- C2 amended: there is no summary cache.  Indexing never writes collection
metadata, `show_summaries` never reads or writes it, and every call to
`show_summaries` re-invokes the Summarization Client exactly once per distinct
chapter present in the store (the grouped chapter keys are pairwise distinct). -/
theorem c2_no_summary_cache (entries : List (Str × Option Str)) :
    countSummarize (show_summaries entries) = (get_chapter_docs entries).length
    ∧ (keysOf (get_chapter_docs entries)).Nodup
    ∧ Effect.metadataModify ∉ show_summaries entries
    ∧ ∀ (ex : Bool) (stem : Str) (mdLines : List Str),
        Effect.metadataModify ∉ (index_book ex stem mdLines).1 :=
  ⟨countSummarize_show_summaries entries, get_chapter_docs_keys_nodup entries,
    metadataModify_not_mem_show_summaries entries,
    fun ex stem mdLines => metadataModify_not_mem_index_book ex stem mdLines⟩

/-- Witness for C2 at a concrete store: one stored document in one chapter
leads to exactly one Summarization Client call per `show_summaries` call. -/
theorem c2_witness :
    countSummarize (show_summaries [("first doc".toList, some "Ch1".toList)]) = 1 := by
  rw [(c2_no_summary_cache [("first doc".toList, some "Ch1".toList)]).1]
  decide

theorem summarize_mem_show_summaries (entries : List (Str × Option Str)) (ch : Str) :
    (∃ t, Effect.summarize ch t ∈ show_summaries entries)
      ↔ ch ∈ entries.map fun e => chapterOf e.2 := by
  constructor
  · rintro ⟨t, ht⟩
    rcases List.mem_cons.mp ht with h | h
    · exact Effect.noConfusion h
    · rcases List.mem_flatMap.mp h with ⟨g, hg, hmem⟩
      simp only [List.mem_singleton] at hmem
      injection hmem with hch _

      have hgroups : g ∈ get_chapter_docs entries :=
        (List.perm_insertionSort _ _).mem_iff.mp hg
      have hkey : g.1 ∈ keysOf (get_chapter_docs entries) :=
        List.mem_map_of_mem Prod.fst hgroups
      rw [hch]
      exact (mem_keysOf_get_chapter_docs entries g.1).mp hkey
  · intro h
    have hkey : ch ∈ keysOf (get_chapter_docs entries) :=
      (mem_keysOf_get_chapter_docs entries ch).mpr h
    rcases List.mem_map.mp hkey with ⟨g, hg, hch⟩
    refine ⟨pyJoin [' '] (g.2.take 10), List.mem_cons_of_mem _ ?_⟩
    refine List.mem_flatMap.mpr ⟨g, (List.perm_insertionSort _ _).mem_iff.mpr hg, ?_⟩
    rw [hch]
    exact List.mem_singleton.mpr rfl

theorem summarize_count_le_one (entries : List (Str × Option Str)) (ch : Str) :
    (show_summaries entries).countP
      (fun e =>
        match e with
        | Effect.summarize c _ => decide (c = ch)
        | _ => false) ≤ 1 := by
  rw [show_summaries, flatMap_one
    (fun g : Str × List Str => Effect.summarize g.1 (pyJoin [' '] (g.2.take 10)))]
  rw [List.countP_cons]
  norm_num
  have hcomp : ((fun e =>
      match e with
      | Effect.summarize c _ => decide (c = ch)
      | _ => false) ∘ fun g : Str × List Str =>
        Effect.summarize g.1 (pyJoin [' '] (g.2.take 10)))
      = fun g : Str × List Str => decide (g.1 = ch) := by
    funext g
    rfl
  rw [hcomp, sorted_chapters,
    List.Perm.countP_eq _ (List.perm_insertionSort _ (get_chapter_docs entries))]
  have hkeys : (get_chapter_docs entries).countP (fun g => decide (g.1 = ch))
      = (keysOf (get_chapter_docs entries)).countP fun k => decide (k = ch) := by
    rw [keysOf, List.countP_map]
    rfl
  rw [hkeys, List.countP_eq_length_filter]
  refine length_le_one_of_all_eq _ ch (fun x hx => ?_)
    ((get_chapter_docs_keys_nodup entries).filter _)
  have := (List.mem_filter.mp hx).2
  simpa using this

/-- C4 counterexample: on the spec's own two-chapter scenario the first
chapter "Intro" is summarized — the Summarization Client is invoked on the
concatenation of the Intro paragraphs, contradicting "never for chapter 1". -/
theorem c4_counterexample :
    Effect.summarize "Intro".toList "Intro para one. Intro para two.".toList
      ∈ show_summaries
          [("Intro para one.".toList, some "Intro".toList),
           ("Intro para two.".toList, some "Intro".toList),
           ("Body para one.".toList, some "Body".toList)] := by
  decide

/-- C4 amended: the summarization pass skips no chapter.  The Summarization
Client is invoked exactly once per distinct chapter present in the store —
including the first — each on the space-join of the first 10 documents of
that chapter, and the chapters are processed in sorted (lexicographic) title
order rather than document order; no (chapter, claims) metadata is persisted
(see the C2 theorem for the metadata part). -/
theorem c4_summarizes_every_chapter (entries : List (Str × Option Str)) (ch : Str) :
    ((∃ t, Effect.summarize ch t ∈ show_summaries entries)
        ↔ ch ∈ entries.map fun e => chapterOf e.2)
    ∧ (show_summaries entries).countP
        (fun e =>
          match e with
          | Effect.summarize c _ => decide (c = ch)
          | _ => false) ≤ 1
    ∧ List.Sorted (fun a b : Str × List Str => pyStrLe a.1 b.1 = true)
        (sorted_chapters entries) :=
  ⟨summarize_mem_show_summaries entries ch, summarize_count_le_one entries ch,
    List.sorted_insertionSort _ _⟩

/-- Witness for C4 at a concrete store: the single (hence first) chapter
"Intro" is summarized. -/
theorem c4_witness :
    ∃ t, Effect.summarize "Intro".toList t
      ∈ show_summaries [("Intro para one.".toList, some "Intro".toList)] :=
  (c4_summarizes_every_chapter
    [("Intro para one.".toList, some "Intro".toList)] "Intro".toList).1.mpr
    (by decide)

/-- C7: a search submission whose query is empty after stripping falls back to
the summary view, and its trace contains no query-embedding call and no
vector-store query. -/
theorem c7_empty_query_fallback (entries : List (Str × Option Str))
    (searchInput : Str) (h : (pyStrip searchInput).isEmpty = true) :
    perform_search entries searchInput = show_summaries entries
    ∧ (∀ q, Effect.embedQuery q ∉ perform_search entries searchInput)
    ∧ ∀ k, Effect.storeQuery k ∉ perform_search entries searchInput := by
  have h1 : perform_search entries searchInput = show_summaries entries := by
    rw [perform_search]
    simp only [h, if_true]
  refine ⟨h1, fun q hq => ?_, fun k hk => ?_⟩
  · rw [h1] at hq
    rcases List.mem_cons.mp hq with hq | hq
    · exact Effect.noConfusion hq
    · rcases List.mem_flatMap.mp hq with ⟨g, _, hg⟩
      simp at hg
  · rw [h1] at hk
    rcases List.mem_cons.mp hk with hk | hk
    · exact Effect.noConfusion hk
    · rcases List.mem_flatMap.mp hk with ⟨g, _, hg⟩
      simp at hg

/-- Witness for C7 at a concrete input: a whitespace-only query produces
exactly the summary-view trace. -/
theorem c7_witness :
    perform_search [("doc one".toList, some "Alpha".toList)] "   ".toList
      = show_summaries [("doc one".toList, some "Alpha".toList)] :=
  (c7_empty_query_fallback [("doc one".toList, some "Alpha".toList)]
    "   ".toList (by decide)).1

/-! ## main.py: search_collection -/

/-- Shape of a chromadb query response as consumed by `search_collection`:
the first ranked result list of documents, their metadata chapter values, and
their distances (the store returns these as parallel lists; distances are
modelled as rationals). -/
structure QueryResponse where
  documents : List Str
  metadatas : List Str
  distances : List Rat

/-- main.py `search_collection` result assembly: zips the store's parallel
documents/metadatas/distances lists into (chapter, text, distance) triples in
the store's returned order — no re-sorting, no filtering. -/
def search_collection (resp : QueryResponse) : List (Str × Str × Rat) :=
  (resp.documents.zip (resp.metadatas.zip resp.distances)).map
    fun p => (p.2.1, p.1, p.2.2)

theorem zip3_projections {α β γ : Type} :
    ∀ (l₁ : List α) (l₂ : List β) (l₃ : List γ),
      l₁.length = l₂.length → l₂.length = l₃.length →
      ((l₁.zip (l₂.zip l₃)).map fun p => p.2.1) = l₂
      ∧ ((l₁.zip (l₂.zip l₃)).map fun p => p.1) = l₁
      ∧ ((l₁.zip (l₂.zip l₃)).map fun p => p.2.2) = l₃
      ∧ (l₁.zip (l₂.zip l₃)).length = l₁.length := by
  intro l₁
  induction l₁ with
  | nil =>
    intro l₂ l₃ h12 h23
    cases l₂ with
    | nil =>
      cases l₃ with
      | nil => simp
      | cons c t₃ => simp at h23
    | cons b t₂ => simp at h12
  | cons a t₁ ih =>
    intro l₂ l₃ h12 h23
    cases l₂ with
    | nil => simp at h12
    | cons b t₂ =>
      cases l₃ with
      | nil => simp at h23
      | cons c t₃ =>
        have h12' : t₁.length = t₂.length := by simpa using h12
        have h23' : t₂.length = t₃.length := by simpa using h23
        obtain ⟨i1, i2, i3, i4⟩ := ih t₂ t₃ h12' h23'
        refine ⟨?_, ?_, ?_, ?_⟩ <;> simp [List.zip_cons_cons, i1, i2, i3, i4]

/-- C6: given the Vector Store contract — the query response's three parallel
lists each hold min(k, total) ranked entries with non-decreasing distances —
`search_collection` returns exactly min(k, total) triples whose chapters,
texts, and distances are the store's lists unchanged and in the store's order
(so the output distance sequence is itself non-decreasing: the Retriever does
not re-sort). -/
theorem c6_search_ordering (resp : QueryResponse) (k total : Nat)
    (hd : resp.documents.length = min k total)
    (hm : resp.metadatas.length = min k total)
    (hq : resp.distances.length = min k total)
    (hsorted : List.Chain' (fun a b : Rat => a ≤ b) resp.distances) :
    (search_collection resp).length = min k total
    ∧ ((search_collection resp).map fun t => t.1) = resp.metadatas
    ∧ ((search_collection resp).map fun t => t.2.1) = resp.documents
    ∧ ((search_collection resp).map fun t => t.2.2) = resp.distances
    ∧ List.Chain' (fun a b : Str × Str × Rat => a.2.2 ≤ b.2.2)
        (search_collection resp) := by
  obtain ⟨h1, h2, h3, h4⟩ := zip3_projections resp.documents resp.metadatas
    resp.distances (by rw [hd, hm]) (by rw [hm, hq])
  have hc : ((search_collection resp).map fun t => t.1) = resp.metadatas := by
    rw [search_collection, List.map_map]
    exact h1
  have ht : ((search_collection resp).map fun t => t.2.1) = resp.documents := by
    rw [search_collection, List.map_map]
    exact h2
  have hdist : ((search_collection resp).map fun t => t.2.2) = resp.distances := by
    rw [search_collection, List.map_map]
    exact h3
  refine ⟨?_, hc, ht, hdist, ?_⟩
  · rw [search_collection, List.length_map, h4, hd]
  · have := (List.chain'_map (fun t : Str × Str × Rat => t.2.2)).mp
      (by rw [hdist]; exact hsorted)
    exact this

/-- Witness for C6 at a concrete two-paragraph store response to a top-10
query: exactly min(10, 2) = 2 triples, distances preserved in order. -/
theorem c6_witness :
    (search_collection
        ⟨["d1".toList, "d2".toList], ["A".toList, "B".toList],
          [(1 : Rat), 2]⟩).length = min 10 2
    ∧ ((search_collection
        ⟨["d1".toList, "d2".toList], ["A".toList, "B".toList],
          [(1 : Rat), 2]⟩).map fun t => t.2.2) = [(1 : Rat), 2] := by
  have h := c6_search_ordering
    ⟨["d1".toList, "d2".toList], ["A".toList, "B".toList], [(1 : Rat), 2]⟩
    10 2 (by simp) (by simp) (by simp)
    (by simp [List.chain'_cons])
  exact ⟨h.1, h.2.2.2.1⟩

/-! ## summarize.py and main.py: summarization request truncation -/

/-- summarize.py prompt slice `text[:-5000]` over codepoints: everything but
the final 5000 characters (empty when the text has at most 5000). -/
def summarize_slice (text : Str) : Str :=
  text.take (text.length - 5000)

/-- main.py `summarize_text` prompt slice `text[:4000]`: the first 4000
characters. -/
def summarize_text_slice (text : Str) : Str :=
  text.take 4000

/-- C9 refutation of boundedness: the summarize.py variant sends
`text[:-5000]`, whose length grows linearly with the chapter (length n for a
chapter of 5000+n characters — unbounded by any constant), and which omits the
chapter entirely when it has at most 5000 characters; only the main.py variant
`text[:4000]` is bounded by a constant. -/
theorem c9_unbounded_payload :
    (∀ n, (summarize_slice (List.replicate (5000 + n) 'a')).length = n)
    ∧ summarize_slice (List.replicate 4000 'a') = []
    ∧ ∀ text : Str, (summarize_text_slice text).length ≤ 4000 := by
  refine ⟨fun n => ?_, ?_, fun text => ?_⟩
  · simp only [summarize_slice, List.length_take, List.length_replicate]
    omega
  · rw [summarize_slice, List.length_replicate]
    have h0 : (4000 : Nat) - 5000 = 0 := by norm_num
    rw [h0, List.take_zero]
  · simp only [summarize_text_slice, List.length_take]
    omega

/-! ## titles.py: toc-driven EPUB extraction -/

/-- Python ASCII `str.lower()` on one character. -/
def pyLower (c : Char) : Char :=
  if 'A' ≤ c && c ≤ 'Z' then Char.ofNat (c.toNat + 32) else c

/-- Python `s.endswith(p)`. -/
def pyEndsWith (s p : Str) : Bool :=
  pyStartsWith s.reverse p.reverse

/-- A navPoint of the toc.ncx navMap: its navLabel text and its content `src`
attribute, either of which may be absent (such navPoints are skipped). -/
structure NavPoint where
  label : Option Str
  content : Option Str
  deriving DecidableEq

/-- Content of one archive member as the extractor consumes it: the toc file
parses to a navPoint list (`none` models malformed XML, which makes
`ET.fromstring` raise), while a chapter page holds the text of its `<p>` tags
(`get_text(strip=True, separator=" ")` results, possibly empty). -/
inductive EntryContent where
  | toc (parsed : Option (List NavPoint))
  | page (paras : List Str)
  deriving DecidableEq

/-- An EPUB zip archive: named members in archive order. -/
structure Epub where
  entries : List (Str × EntryContent)
  deriving DecidableEq

/-- Abstraction of what iter_chapter_paragraphs_ raises: `tocMissing` models
`FileNotFoundError("toc.ncx not found in EPUB.")`, `tocMalformed` models
`ET.ParseError` from `ET.fromstring` on the toc data. -/
inductive ExtractionError where
  | tocMissing
  | tocMalformed
  deriving DecidableEq

/-- Python `z.namelist()`. -/
def namelist (z : Epub) : List Str :=
  z.entries.map Prod.fst

/-- The toc search of titles.py: the first archive name whose lowercase form
ends with "toc.ncx". -/
def findToc (names : List Str) : Option Str :=
  names.find? fun n => pyEndsWith (n.map pyLower) "toc.ncx".toList

/-- Python `z.read(name)` plus membership: the content of the first member
with that exact name, or `none` when the archive has no such member. -/
def readEntry (z : Epub) (name : Str) : Option EntryContent :=
  (z.entries.find? fun e => e.1 == name).map Prod.snd

/-- Python `toc_path.rpartition("/")[0]`: everything before the last slash,
empty when there is none. -/
def dirOf (path : Str) : Str :=
  ((path.reverse.dropWhile fun c => !(c == '/')).drop 1).reverse

/-- The href resolution of titles.py: prepend the toc directory unless it is
empty or the href already starts with it. -/
def resolveHref (tocDir href : Str) : Str :=
  if tocDir.isEmpty then href
  else if pyStartsWith href tocDir then href
  else tocDir ++ ['/'] ++ href

/-- The chapter list built from the navMap: navPoints missing a label or a
content element are skipped; titles are stripped and hrefs resolved relative
to the toc directory. -/
def navChapterList (tocDir : Str) (nps : List NavPoint) : List (Str × Str) :=
  nps.filterMap fun np =>
    match np.label, np.content with
    | some t, some src => some (pyStrip t, resolveHref tocDir src)
    | _, _ => none

/-- The resolved chapter list of an archive ([] when the toc is absent or
malformed). -/
def navChapters (z : Epub) : List (Str × Str) :=
  match findToc (namelist z) with
  | none => []
  | some tocPath =>
    match readEntry z tocPath with
    | some (EntryContent.toc (some nps)) => navChapterList (dirOf tocPath) nps
    | _ => []

/-- Whether the archive's navigation structure is present and well-formed:
a toc member is found and parses to a navPoint list. -/
def nav_ok (z : Epub) : Bool :=
  match findToc (namelist z) with
  | none => false
  | some tocPath =>
    match readEntry z tocPath with
    | some (EntryContent.toc (some _)) => true
    | _ => false

/-- Paragraph texts of one archive member as the chapter loop reads them (an
ncx member has no `<p>` tags). -/
def pageParas : EntryContent → List Str
  | EntryContent.toc _ => []
  | EntryContent.page ps => ps

/-- Paragraphs contributed by one chapter entry of the navMap: a chapter whose
content file is absent from the archive is skipped (`continue`), otherwise the
member's nonempty paragraph texts are yielded tagged with the chapter title. -/
def chapterParas (z : Epub) (c : Str × Str) : List (Str × Str) :=
  match readEntry z c.2 with
  | none => []
  | some content => ((pageParas content).filter fun t => !t.isEmpty).map fun t => (c.1, t)

/-- titles.py `iter_chapter_paragraphs_`: fails when the toc is absent or
malformed, and otherwise yields, chapter by chapter in navMap order, the
nonempty paragraph texts of each chapter whose content file exists in the
archive. -/
def iter_chapter_paragraphs_ (z : Epub) : Except ExtractionError (List (Str × Str)) :=
  match findToc (namelist z) with
  | none => Except.error ExtractionError.tocMissing
  | some tocPath =>
    match readEntry z tocPath with
    | some (EntryContent.toc (some nps)) =>
      Except.ok ((navChapterList (dirOf tocPath) nps).flatMap (chapterParas z))
    | _ => Except.error ExtractionError.tocMalformed

/-- titles.py `iter_chapter_paragraphs`:
`itertools.islice(iter_chapter_paragraphs_(epub_path), 300)` — the first 300
pairs of the underlying sequence. -/
def iter_chapter_paragraphs (z : Epub) : Except ExtractionError (List (Str × Str)) :=
  (iter_chapter_paragraphs_ z).map fun l => l.take 300

/-- Whether extraction completes without an error. -/
def extractionSucceeds (z : Epub) : Bool :=
  match iter_chapter_paragraphs_ z with
  | Except.ok _ => true
  | Except.error _ => false

/-- C3: when the underlying navigation-ordered sequence holds more than 300
pairs, `iter_chapter_paragraphs` produces exactly 300 pairs, and they are
exactly the first 300 of that sequence (hard prefix truncation, element by
element). -/
theorem c3_trunc_at_300 (z : Epub) (l : List (Str × Str))
    (h : iter_chapter_paragraphs_ z = Except.ok l) (hlen : 300 < l.length) :
    iter_chapter_paragraphs z = Except.ok (l.take 300)
    ∧ (l.take 300).length = 300
    ∧ ∀ i, i < 300 → (l.take 300)[i]? = l[i]? := by
  refine ⟨?_, ?_, fun i hi => List.getElem?_take_of_lt hi⟩
  · rw [iter_chapter_paragraphs, h]
    rfl
  · rw [List.length_take]
    omega

/-- Concrete archive with one chapter of 301 paragraphs, for the C3 witness. -/
def zBig : Epub :=
  ⟨[("toc.ncx".toList,
      EntryContent.toc (some [⟨some "One".toList, some "c.html".toList⟩])),
    ("c.html".toList, EntryContent.page (List.replicate 301 "x".toList))]⟩

theorem zBig_extraction :
    iter_chapter_paragraphs_ zBig
      = Except.ok (List.replicate 301 ("One".toList, "x".toList)) := by
  have hfilter : (List.replicate 301 "x".toList).filter (fun t => !t.isEmpty)
      = List.replicate 301 "x".toList :=
    List.filter_eq_self.mpr fun a ha => by rw [List.eq_of_mem_replicate ha]; rfl
  show Except.ok
      ((((List.replicate 301 "x".toList).filter fun t => !t.isEmpty).map
        fun t => ("One".toList, t)) ++ ([] : List (Str × Str))) = _
  rw [hfilter, List.map_replicate, List.append_nil]

/-- Witness for C3: the 301-paragraph archive is indexed with exactly the
first 300 paragraphs. -/
theorem c3_witness :
    iter_chapter_paragraphs zBig
      = Except.ok (List.replicate 300 ("One".toList, "x".toList))
    ∧ (List.replicate 300 ("One".toList, "x".toList)).length = 300 := by
  have h := c3_trunc_at_300 zBig (List.replicate 301 ("One".toList, "x".toList))
    zBig_extraction (by rw [List.length_replicate]; norm_num)
  have htake : (List.replicate 301 ("One".toList, "x".toList)).take 300
      = List.replicate 300 ("One".toList, "x".toList) := by
    rw [List.take_replicate]
    norm_num
  refine ⟨?_, by rw [← htake]; exact h.2.1⟩
  rw [h.1, htake]

/-- C8: extraction fails (with the modelled ExtractionError) exactly when the
navigation structure is absent or malformed; when it succeeds, every yielded
paragraph comes from a navMap chapter whose content file exists in the
archive, and conversely every nonempty paragraph of every chapter whose file
exists is yielded — so a chapter whose content file is missing is silently
skipped while the remaining chapters are still extracted. -/
theorem c8_error_and_skip (z : Epub) :
    extractionSucceeds z = nav_ok z
    ∧ ∀ l, iter_chapter_paragraphs_ z = Except.ok l →
        (∀ p ∈ l, ∃ f content, (p.1, f) ∈ navChapters z
            ∧ readEntry z f = some content
            ∧ p.2 ∈ pageParas content)
        ∧ ∀ c f content, (c, f) ∈ navChapters z → readEntry z f = some content →
            ∀ t ∈ pageParas content, t.isEmpty = false → (c, t) ∈ l := by
  rcases hf : findToc (namelist z) with _ | tocPath
  · constructor
    · simp only [extractionSucceeds, nav_ok, iter_chapter_paragraphs_, hf]
    · intro l hl
      simp only [iter_chapter_paragraphs_, hf] at hl
      exact Except.noConfusion hl
  · rcases hr : readEntry z tocPath with _ | content
    · constructor
      · simp only [extractionSucceeds, nav_ok, iter_chapter_paragraphs_, hf, hr]
      · intro l hl
        simp only [iter_chapter_paragraphs_, hf, hr] at hl
        exact Except.noConfusion hl
    · match content with
      | EntryContent.page ps =>
        constructor
        · simp only [extractionSucceeds, nav_ok, iter_chapter_paragraphs_, hf, hr]
        · intro l hl
          simp only [iter_chapter_paragraphs_, hf, hr] at hl
          exact Except.noConfusion hl
      | EntryContent.toc none =>
        constructor
        · simp only [extractionSucceeds, nav_ok, iter_chapter_paragraphs_, hf, hr]
        · intro l hl
          simp only [iter_chapter_paragraphs_, hf, hr] at hl
          exact Except.noConfusion hl
      | EntryContent.toc (some nps) =>
        have hnav : navChapters z = navChapterList (dirOf tocPath) nps := by
          simp only [navChapters, hf, hr]
        constructor
        · simp only [extractionSucceeds, nav_ok, iter_chapter_paragraphs_, hf, hr]
        · intro l hl
          simp only [iter_chapter_paragraphs_, hf, hr] at hl
          injection hl with hl
          subst hl
          constructor
          · intro p hp
            rcases List.mem_flatMap.mp hp with ⟨c, hc, hpc⟩
            rcases hre : readEntry z c.2 with _ | content
            · rw [chapterParas, hre] at hpc
              exact absurd hpc (List.not_mem_nil p)
            · rw [chapterParas, hre] at hpc
              rcases List.mem_map.mp hpc with ⟨t, ht, hpt⟩
              refine ⟨c.2, content, ?_, hre, ?_⟩
              · rw [hnav, ← hpt]
                exact hc
              · rw [← hpt]
                exact (List.mem_filter.mp ht).1
          · intro c f content hcf hre t htp hte
            refine List.mem_flatMap.mpr ⟨(c, f), ?_, ?_⟩
            · rw [hnav] at hcf
              exact hcf
            · rw [chapterParas, hre]
              exact List.mem_map.mpr
                ⟨t, List.mem_filter.mpr ⟨htp, by rw [hte]; rfl⟩, rfl⟩

/-- Concrete archive whose first chapter file is missing from the archive,
for the C8 witness. -/
def zMiss : Epub :=
  ⟨[("OEBPS/toc.ncx".toList,
      EntryContent.toc (some
        [⟨some "One".toList, some "ch1.html".toList⟩,
         ⟨some "Two".toList, some "ch2.html".toList⟩])),
    ("OEBPS/ch2.html".toList,
      EntryContent.page ["Second chapter text".toList, []])]⟩

/-- Witness for C8: extraction of `zMiss` succeeds even though chapter One's
content file is absent, and the paragraph of the surviving chapter Two is
extracted. -/
theorem c8_witness :
    extractionSucceeds zMiss = true
    ∧ ("Two".toList, "Second chapter text".toList)
        ∈ [("Two".toList, "Second chapter text".toList)] := by
  refine ⟨((c8_error_and_skip zMiss).1).trans rfl, ?_⟩
  exact ((c8_error_and_skip zMiss).2
    [("Two".toList, "Second chapter text".toList)] rfl).2
    "Two".toList "OEBPS/ch2.html".toList
    (EntryContent.page ["Second chapter text".toList, []])
    (by decide) rfl "Second chapter text".toList (by decide) rfl

end Bookclub
